import Mathlib

/-!
Verification development for `kratky_rg_izero.py`.

The Python module parses semi-structured report files (`.out`) produced by a
distance-distribution analysis tool, extracts a scalar Rg, a scalar I(0) and a
fixed-width (S, J EXP) table from each, applies the Kratky transform
`x = S*rg`, `y = (S*rg)^2 * (J_exp / i0)`, and plots all series.

Shallow embedding conventions:
- a report file is a `List String` of its lines, in order; the empty string
  models a blank line (pandas turns empty lines into NaN rows that `dropna`
  removes);
- Python floats are modelled as exact rationals `ℚ`; where the claim is about
  IEEE-754 non-finite propagation we use the extended type `F64` below;
- fallible Python code (raising IndexError / ValueError) returns
  `Option`/`Except`.
-/

/-- Substring containment on character lists: `needle` occurs contiguously in
`hay`.  Models Python's `needle in hay` for strings. -/
def containsSub (hay needle : List Char) : Bool :=
  match hay with
  | [] => needle.isEmpty
  | _ :: t => needle.isPrefixOf hay || containsSub t needle

/-- `'sub' in line` for Lean strings. -/
def containsStr (line sub : String) : Bool :=
  containsSub line.data sub.data

/-- Split a character list at every character satisfying `p`, keeping empty
pieces; the result is never empty. -/
def splitPred (p : Char → Bool) : List Char → List (List Char)
  | [] => [[]]
  | c :: t =>
    match splitPred p t with
    | [] => [[]]
    | h :: r => if p c then [] :: h :: r else (c :: h) :: r

/-- Python `str.split()` (no argument): split on whitespace, discarding empty
pieces. -/
def pySplit (s : String) : List String :=
  ((splitPred Char.isWhitespace s.data).filter (fun t => t ≠ [])).map (fun l => String.mk l)

/-- Python `str.split(sep)` for a single-character separator, on character
lists: `"a__b"` splits into `["a", "", "b"]`. -/
def splitChar (sep : Char) : List Char → List (List Char) :=
  splitPred (fun c => c = sep)

/-- Python `sep.join(pieces)` for a single-character separator. -/
def joinSep (sep : Char) : List (List Char) → List Char
  | [] => []
  | [x] => x
  | x :: y :: r => x ++ sep :: joinSep sep (y :: r)

theorem splitPred_ne_nil (p : Char → Bool) (l : List Char) : splitPred p l ≠ [] := by
  cases l with
  | nil => simp [splitPred]
  | cons c t =>
    simp only [splitPred]
    split <;> [skip; split] <;> simp

/-- Splitting on a character and rejoining with the same character is the
identity (used for the legend-label analysis). -/
theorem joinSep_splitChar (sep : Char) (l : List Char) :
    joinSep sep (splitChar sep l) = l := by
  unfold splitChar
  induction l with
  | nil => simp [splitPred, joinSep]
  | cons c t ih =>
    rcases h : splitPred (fun c => c = sep) t with _ | ⟨h', r⟩
    · exact absurd h (splitPred_ne_nil _ t)
    · rw [h] at ih
      simp only [splitPred, h]
      by_cases hc : c = sep
      · subst hc
        rw [if_pos (by simp)]
        simp only [joinSep]
        simpa using ih
      · rw [if_neg (by simpa using hc)]
        cases r with
        | nil => simp only [joinSep] at ih ⊢; simp [ih]
        | cons y r' => simp only [joinSep] at ih ⊢; simp [ih]

/-- Numeric value of a run of decimal digits (most significant first). -/
def digitsToNat (l : List Char) : Nat :=
  l.foldl (fun a c => a * 10 + (c.toNat - 48)) 0

/-- Split a character list into its leading run of decimal digits and the
rest. -/
def takeDigits : List Char → List Char × List Char
  | [] => ([], [])
  | c :: t =>
    if c.isDigit then
      let p := takeDigits t
      (c :: p.1, p.2)
    else ([], c :: t)

/-- Parse an optionally signed decimal integer (exponent part of a float
literal). -/
def parseSignedNat (l : List Char) : Option Int :=
  match l with
  | '+' :: t => if t.all Char.isDigit && !t.isEmpty then some (digitsToNat t) else none
  | '-' :: t => if t.all Char.isDigit && !t.isEmpty then some (-(digitsToNat t : Int)) else none
  | t => if t.all Char.isDigit && !t.isEmpty then some (digitsToNat t) else none

/-- Parse an unsigned decimal mantissa `digits [. digits]` (at least one digit
somewhere) as an exact rational. -/
def parseMantissa (l : List Char) : Option ℚ :=
  let p := takeDigits l
  match p.2 with
  | '.' :: r2 =>
    let q := takeDigits r2
    if q.2.isEmpty && !(p.1.isEmpty && q.1.isEmpty) then
      some ((digitsToNat p.1 : ℚ) + (digitsToNat q.1 : ℚ) / (10 : ℚ) ^ q.1.length)
    else none
  | [] => if p.1.isEmpty then none else some (digitsToNat p.1 : ℚ)
  | _ => none

/-- Split a float literal at its `e`/`E` exponent marker, if present. -/
def splitAtExp : List Char → List Char × Option (List Char)
  | [] => ([], none)
  | c :: t =>
    if c = 'e' || c = 'E' then ([], some t)
    else
      let p := splitAtExp t
      (c :: p.1, p.2)

/-- Unsigned float literal: mantissa with optional exponent. -/
def parseUFloat (l : List Char) : Option ℚ :=
  let p := splitAtExp l
  match parseMantissa p.1, p.2 with
  | some q, none => some q
  | some q, some el => (parseSignedNat el).map (fun k => q * (10 : ℚ) ^ k)
  | none, _ => none

/-- Python `float(s)` on decimal literals (optional sign, digits, optional
fractional part, optional exponent), as an exact rational; `none` models a
raised `ValueError`. -/
def parseFloat (s : String) : Option ℚ :=
  match s.data with
  | '+' :: t => parseUFloat t
  | '-' :: t => (parseUFloat t).map Neg.neg
  | t => parseUFloat t

example : parseFloat "30.0" = some 30 := by
  simp +decide [parseFloat, parseUFloat, parseMantissa, splitAtExp, takeDigits, digitsToNat]
example : parseFloat "0.3162E+02" = some (1581 / 50) := by
  simp +decide [parseFloat, parseUFloat, parseMantissa, splitAtExp, takeDigits, digitsToNat,
    parseSignedNat]
  norm_num
example : parseFloat "abc" = none := by
  simp +decide [parseFloat, parseUFloat, parseMantissa, splitAtExp, takeDigits]

/-! ### Anchor pattern matchers (pandas `Series.str.contains`, `case=True`)

`str.contains` performs an unanchored regex search, so the leading `\s*` of
both patterns is absorbed by the search and the matchers below look for the
literal core of each pattern starting at every position. -/

/-- After the literal `Real`, match `\s*Space`: skip any whitespace, then the
literal `Space`. -/
def realSpaceTail : List Char → Bool
  | [] => false
  | c :: t => "Space".data.isPrefixOf (c :: t) || (c.isWhitespace && realSpaceTail t)

/-- Unanchored, case-sensitive search for the regex `\s*Real\s*Space`
(the `stop` anchor of `get_s_i`, source line 63-64). -/
def matchRealSpace : List Char → Bool
  | [] => false
  | c :: t =>
    ("Real".data.isPrefixOf (c :: t) && realSpaceTail ((c :: t).drop 4)) || matchRealSpace t

/-- After `J EXP`, match `\s*ERROR` (the regex group `(ERROR)` matches the
literal text `ERROR`). -/
def errorTail : List Char → Bool
  | [] => false
  | c :: t => "ERROR".data.isPrefixOf (c :: t) || (c.isWhitespace && errorTail t)

/-- After the literal `S`, match `\s*J EXP\s*ERROR`. -/
def jexpTail : List Char → Bool
  | [] => false
  | c :: t =>
    ("J EXP".data.isPrefixOf (c :: t) && errorTail ((c :: t).drop 5)) ||
      (c.isWhitespace && jexpTail t)

/-- Unanchored, case-sensitive search for the regex `\s*S\s*J EXP\s*(ERROR)`
(the `start` anchor of `get_s_i`, source line 65-66). -/
def matchHeader : List Char → Bool
  | [] => false
  | c :: t => (c = 'S' && jexpTail t) || matchHeader t

example : matchRealSpace "          Real space: Rg =   30.00".data = false := by decide
example : matchRealSpace "  Real Space ".data = true := by decide
example : matchRealSpace "RealSpace".data = true := by decide
example : matchHeader "  S          J EXP       ERROR       J REG       I REG".data = true := by
  decide
example : matchHeader " S J EXPERROR".data = true := by decide
example : matchHeader "title".data = false := by decide

/-! ### `get_s_i` (source lines 47-71)

`pd.read_table(fn, names=['data'], sep='\n', skip_blank_lines=False).dropna()`
yields one row per line of the file, indexed by the original line number,
with the rows for blank lines dropped.  We model it as the enumerated list of
lines with the blank (empty-string) entries filtered out. -/

/-- The blank-dropped, original-index-preserving view of the file
(`data_find` in the source). -/
def dataFind (lines : List String) : List (Nat × String) :=
  lines.enum.filter (fun p => p.2 ≠ "")

/-- `data_find[data_find.data.str.contains(pat)].index.to_list()[0]`: the
original line index of the first non-blank line whose text satisfies `p`;
`none` models the `IndexError` raised by `[0]` on an empty list. -/
def firstMatchIdx (p : String → Bool) (lines : List String) : Option Nat :=
  (((dataFind lines).filter (fun q => p q.2)).head?).map Prod.fst

/-- `stop` of `get_s_i`: index of the first line matching `\s*Real\s*Space`,
minus 2.  (The index is in practice ≥ 2, so the natural subtraction is
exact.) -/
def stopIdx (lines : List String) : Option Nat :=
  (firstMatchIdx (fun l => matchRealSpace l.data) lines).map (fun b => b - 2)

/-- `start` of `get_s_i`: index of the first line matching
`\s*S\s*J EXP\s*(ERROR)`, plus 1. -/
def startIdx (lines : List String) : Option Nat :=
  (firstMatchIdx (fun l => matchHeader l.data) lines).map (fun h => h + 1)

/-- One row of `pd.read_fwf(..., names=['S', 'J EXP', 'ERROR', 'J REG',
'I REG'])`: the five fixed-width fields of a table line.  On the well-formed
numeric rows of these reports the fixed-width columns coincide with the
whitespace-separated tokens; a missing or non-numeric field is `none`
(pandas `NaN`). -/
structure FwfRow where
  S : Option ℚ
  jExp : Option ℚ
  err : Option ℚ
  jReg : Option ℚ
  iReg : Option ℚ
  deriving Repr, DecidableEq

/-- Parse one table line into its five named fields. -/
def parseFwfRow (l : String) : FwfRow :=
  let t := pySplit l
  ⟨(t.get? 0).bind parseFloat, (t.get? 1).bind parseFloat, (t.get? 2).bind parseFloat,
    (t.get? 3).bind parseFloat, (t.get? 4).bind parseFloat⟩

/-- `s_i_data[['S', 'J EXP']].astype('float')` applied to one row: keep only
the `S` and `J EXP` fields. -/
def sICols (l : String) : Option ℚ × Option ℚ :=
  ((parseFwfRow l).S, (parseFwfRow l).jExp)

/-- `pd.read_fwf(fn, skiprows=start, nrows=stop-start, ...)`: skip the first
`skiprows` physical lines, drop blank lines, and parse the next `nrows`
lines. -/
def readFwfRows (lines : List String) (skiprows nrows : Nat) : List String :=
  (((lines.drop skiprows).filter (fun l => l ≠ "")).take nrows)

/-- `get_s_i` (source lines 47-71): locate the table boundaries by the two
anchor patterns and extract the `S` and `J EXP` columns of the body rows;
`none` models the `IndexError` raised when an anchor is missing. -/
def get_s_i (lines : List String) : Option (List (Option ℚ × Option ℚ)) :=
  match stopIdx lines, startIdx lines with
  | some stop, some start => some ((readFwfRows lines start (stop - start)).map sICols)
  | _, _ => none

/-! ### Scalar extraction (source lines 74-113) -/

/-- `line.split()[3]` followed by `float(...)`: the whitespace-split token at
index 3, parsed as a float; `.error` models the `IndexError` / `ValueError`
raised on failure. -/
def floatTokenAt (line : String) (i : Nat) : Except String ℚ :=
  match (pySplit line).get? i with
  | none => .error "IndexError"
  | some tok =>
    match parseFloat tok with
    | none => .error "ValueError"
    | some q => .ok q

/-- `real_space_rg` (source lines 74-92): scan the lines in order; on the
first line containing the substring `Real space Rg`, return the fourth
whitespace-split token parsed as a float.  Falling through the loop returns
Python `None`, modelled as `.ok none`. -/
def real_space_rg : List String → Except String (Option ℚ)
  | [] => .ok none
  | line :: rest =>
    if containsStr line "Real space Rg" then (floatTokenAt line 3).map some
    else real_space_rg rest

/-- `real_space_io` (source lines 95-113): identical scan for the substring
`Real space I(0)`. -/
def real_space_io : List String → Except String (Option ℚ)
  | [] => .ok none
  | line :: rest =>
    if containsStr line "Real space I(0)" then (floatTokenAt line 3).map some
    else real_space_io rest

example :
    real_space_rg ["x", "          Real space: Rg =   30.00 +- 0.1"] = .ok none := by rfl
example : real_space_rg ["a b", " Real space Rg:  30.0 +- 0.1"] = .ok (some 30) := by
  simp +decide [real_space_rg, containsStr, containsSub, floatTokenAt, pySplit, splitPred,
    parseFloat, parseUFloat, parseMantissa, splitAtExp, takeDigits, digitsToNat, Except.map]

/-! ### `gather_files_legend` (source lines 21-44) -/

/-- `'_'.join(fn.split('_')[:3])` (source line 40): the legend label derived
from a discovered file name.  Note the split is applied to the full file name
as returned by `os.listdir`, extension included. -/
def legendName (fn : String) : String :=
  ⟨joinSep '_' ((splitChar '_' fn.data).take 3)⟩

/-- `os.path.join(data_dir, fn)` for a directory path without a trailing
separator and a relative file name. -/
def pathJoin (dataDir fn : String) : String :=
  dataDir ++ "/" ++ fn

/-- Python `fn.endswith(suffix)`. -/
def pyEndsWith (s suffix : String) : Bool :=
  suffix.data.isSuffixOf s.data

/-- `gather_files_legend` (source lines 21-44).  `os.listdir` is called twice
(once for the legend names, once for the file paths); the two listings are
separate arguments because the filesystem could answer differently each time.
Both accumulator lists are initialized inside the function body (lines 36-37),
so the result depends only on the arguments. -/
def gather_files_legend (dataDir : String) (listing1 listing2 : List String) :
    List String × List String :=
  let legendNames := (listing1.filter (fun fn => pyEndsWith fn ".out")).map legendName
  let fns := (listing2.filter (fun fn => pyEndsWith fn ".out")).map (pathJoin dataDir)
  (fns, legendNames)

/-! ### Kratky transform (source lines 151-154) -/

/-- `df_s_i['new_column'] = (df_s_i['S'] * rg)**2 * (df_s_i['J EXP'] / i0)`
(source lines 151-152), one row at a time. -/
def newColumn (rg i0 : ℚ) (row : ℚ × ℚ) : ℚ :=
  (row.1 * rg) ^ 2 * (row.2 / i0)

/-- `df_s_i['new_column3'] = df_s_i['S'] * rg` (source line 154), one row at a
time. -/
def newColumn3 (rg : ℚ) (row : ℚ × ℚ) : ℚ :=
  row.1 * rg

/-- The (x, y) points one file contributes to the plot:
`ax.plot(df['new_column3'], df['new_column'], ...)` (source lines 159-160)
pairs `new_column3` as x with `new_column` as y, row by row. -/
def kratkyPoints (rg i0 : ℚ) (df : List (ℚ × ℚ)) : List (ℚ × ℚ) :=
  df.map (fun row => (newColumn3 rg row, newColumn rg i0 row))

/-! ### Series/color pairing (source line 158) -/

/-- Python's three-argument `zip`: truncates to the shortest input and never
raises. -/
def zip3 {α β γ : Type} : List α → List β → List γ → List (α × β × γ)
  | a :: as, b :: bs, c :: cs => (a, b, c) :: zip3 as bs cs
  | _, _, _ => []

/-- `for name, df, color in zip(legend_names, dataframes, colors)` (source
line 158): the sequence of (name, dataframe, color) triples actually
plotted. -/
def plotSeries {D : Type} (legendNames : List String) (dataframes : List D)
    (colors : List String) : List (String × D × String) :=
  zip3 legendNames dataframes colors

/-! ### IEEE-754 finiteness model

Claim C7 is about the classification (finite / infinite / NaN) of float64
results under division by zero.  `F64` models a float64 as either an exact
finite value or one of the three non-finite values; the multiplication and
division rules below are the IEEE-754 rules for these classes (rounding never
changes the class of a product with a non-finite factor, so the finite case
may carry the exact rational). -/

inductive F64 : Type where
  | fin : ℚ → F64
  | inf : F64
  | ninf : F64
  | nan : F64
  deriving Repr, DecidableEq

/-- A float64 is finite iff it is neither an infinity nor NaN. -/
def F64.isFinite : F64 → Bool
  | .fin _ => true
  | _ => false

/-- IEEE-754 multiplication at the class level. -/
def F64.mul : F64 → F64 → F64
  | .nan, _ => .nan
  | _, .nan => .nan
  | .fin a, .fin b => .fin (a * b)
  | .fin a, .inf => if a = 0 then .nan else if 0 < a then .inf else .ninf
  | .fin a, .ninf => if a = 0 then .nan else if 0 < a then .ninf else .inf
  | .inf, .fin a => if a = 0 then .nan else if 0 < a then .inf else .ninf
  | .ninf, .fin a => if a = 0 then .nan else if 0 < a then .ninf else .inf
  | .inf, .inf => .inf
  | .inf, .ninf => .ninf
  | .ninf, .inf => .ninf
  | .ninf, .ninf => .inf

/-- IEEE-754 division at the class level; dividing a finite value by (+)zero
gives ±∞, and 0/0 gives NaN — numpy/pandas return these values rather than
raising. -/
def F64.div : F64 → F64 → F64
  | .nan, _ => .nan
  | _, .nan => .nan
  | .fin a, .fin b =>
    if b = 0 then (if a = 0 then .nan else if 0 < a then .inf else .ninf)
    else .fin (a / b)
  | .fin _, .inf => .fin 0
  | .fin _, .ninf => .fin 0
  | .inf, .fin b => if 0 ≤ b then .inf else .ninf
  | .ninf, .fin b => if 0 ≤ b then .ninf else .inf
  | .inf, .inf => .nan
  | .inf, .ninf => .nan
  | .ninf, .inf => .nan
  | .ninf, .ninf => .nan

/-- `(S * rg)**2 * (J EXP / i0)` (source lines 151-152) evaluated in float64
class semantics (`x ** 2` is `x * x`). -/
def newColumnF64 (rg i0 s j : F64) : F64 :=
  F64.mul (F64.mul (F64.mul s rg) (F64.mul s rg)) (F64.div j i0)

/-! ### Cross-invocation state (source lines 36-37, 139-142)

The module `kratky_rg_izero.py` defines no module-level mutable variable:
every accumulator (`fns`, `legend_names` in `gather_files_legend`; `rgs`,
`i0s`, `dataframes`, `patches` in `plot_rg_io`) is a fresh list created inside
the function body on every call.  The module-level state a batch invocation
can read or write is therefore empty, modelled by `Unit`. -/

def ModuleState : Type := Unit

/-- One invocation of `gather_files_legend` as a state transformer over the
module-level state: the state passes through unchanged and the result is a
function of the arguments alone. -/
def invokeGather (σ : ModuleState) (dataDir : String) (listing1 listing2 : List String) :
    ModuleState × (List String × List String) :=
  (σ, gather_files_legend dataDir listing1 listing2)

example : legendName "sampleA_run1_001_extra.out" = "sampleA_run1_001" := by decide
example : legendName "ab.out" = "ab.out" := by decide
example : plotSeries ["a", "b"] [(1 : Nat), 2] ["red"] = [("a", 1, "red")] := rfl

/-! ### Characterizations of the first-match index search -/

/-- If the first line of `l` (in position order) satisfying `P` is at index
`B`, the filtered enumeration starting at `n` has head index `n + B`. -/
theorem firstMatch_enumFrom (P : String → Bool) (l : List String) :
    ∀ (n B : Nat), B < l.length → P (l.getD B "") = true →
      (∀ i, i < B → P (l.getD i "") = false) →
      ((List.enumFrom n l).filter (fun q => P q.2)).head?.map Prod.fst = some (n + B) := by
  induction l with
  | nil => intro n B hB; exact absurd hB (by simp)
  | cons s t ih =>
    intro n B hB hmatch hfirst
    cases B with
    | zero =>
      simp only [List.getD_cons_zero] at hmatch
      simp [List.enumFrom_cons, List.filter_cons, hmatch]
    | succ B' =>
      have hs : P s = false := by simpa using hfirst 0 (Nat.succ_pos B')
      simp only [List.getD_cons_succ] at hmatch
      have ht := ih (n + 1) B' (by simpa using hB) hmatch
        (fun i hi => by simpa using hfirst (i + 1) (by omega))
      simp only [List.enumFrom_cons, List.filter_cons, hs]
      rw [if_neg (by simp)] at *
      rw [ht]
      congr 1
      omega

/-- The pandas first-match index (over the blank-dropped view) equals the
blank-line-preserving index of the first matching line, whenever the matching
line is non-blank and no earlier line matches. -/
theorem firstMatchIdx_eq_some (p : String → Bool) (lines : List String) (B : Nat)
    (hB : B < lines.length) (hmatch : p (lines.getD B "") = true)
    (hne : lines.getD B "" ≠ "")
    (hfirst : ∀ i, i < B → p (lines.getD i "") = false) :
    firstMatchIdx p lines = some B := by
  unfold firstMatchIdx dataFind
  rw [List.filter_filter]
  have h := firstMatch_enumFrom (fun s => p s && decide (s ≠ "")) lines 0 B hB
    (by simp only [hmatch, Bool.true_and, decide_eq_true_eq]; exact hne)
    (fun i hi => by simp only [hfirst i hi, Bool.false_and])
  rw [show lines.enum = List.enumFrom 0 lines from rfl]
  simpa using h

/-- Taking `n` elements after a filter that keeps the first `n` elements is
taking `n` elements. -/
theorem filter_take_of_all (P : String → Bool) :
    ∀ (l : List String) (n : Nat), (∀ x ∈ l.take n, P x = true) →
      (l.filter P).take n = l.take n := by
  intro l
  induction l with
  | nil => simp
  | cons x t ih =>
    intro n h
    cases n with
    | zero => simp
    | succ m =>
      have hx : P x = true := h x (by simp)
      simp only [List.take_succ_cons, List.filter_cons, hx, if_pos]
      rw [ih m (fun y hy => h y (by simp [hy]))]

/-- A line matching the `Real Space` anchor is non-blank. -/
theorem matchRealSpace_ne_empty {s : String} (h : matchRealSpace s.data = true) : s ≠ "" := by
  intro he
  subst he
  simp [matchRealSpace] at h

/-- A line matching the table-header anchor is non-blank. -/
theorem matchHeader_ne_empty {s : String} (h : matchHeader s.data = true) : s ≠ "" := by
  intro he
  subst he
  simp [matchHeader] at h

/-- **C1** (confirmed): Table extraction boundaries.  For a file in which the
first line matching the header pattern `S  J EXP (ERROR)` has
blank-line-preserving index `H`, the first line matching `Real Space` has
index `B`, the two anchors are far enough apart and the body lines are
non-blank, `get_s_i` reads the table body as lines `[H+1, B-2)` of the
original file, keeps the `S` and `J EXP` fields of the five fixed-width
fields coerced to float, and extracts exactly `(B-2) - (H+1)` rows. -/
theorem get_s_i_table_boundaries (lines : List String) (H B : Nat)
    (hH : H < lines.length) (hB : B < lines.length)
    (hHmatch : matchHeader (lines.getD H "").data = true)
    (hHfirst : ∀ i, i < H → matchHeader (lines.getD i "").data = false)
    (hBmatch : matchRealSpace (lines.getD B "").data = true)
    (hBfirst : ∀ i, i < B → matchRealSpace (lines.getD i "").data = false)
    (hHB : H + 3 ≤ B)
    (hbody : ∀ x ∈ (lines.drop (H + 1)).take (B - 2 - (H + 1)), x ≠ "") :
    get_s_i lines = some (((lines.drop (H + 1)).take (B - 2 - (H + 1))).map sICols) ∧
      (((lines.drop (H + 1)).take (B - 2 - (H + 1))).map sICols).length = B - 2 - (H + 1) := by
  have hstart : startIdx lines = some (H + 1) := by
    unfold startIdx
    rw [firstMatchIdx_eq_some _ lines H hH hHmatch (matchHeader_ne_empty hHmatch) hHfirst]
    rfl
  have hstop : stopIdx lines = some (B - 2) := by
    unfold stopIdx
    rw [firstMatchIdx_eq_some _ lines B hB hBmatch (matchRealSpace_ne_empty hBmatch) hBfirst]
    rfl
  have hrows : readFwfRows lines (H + 1) (B - 2 - (H + 1)) =
      (lines.drop (H + 1)).take (B - 2 - (H + 1)) := by
    unfold readFwfRows
    exact filter_take_of_all _ _ _ (fun x hx => by simpa using hbody x hx)
  constructor
  · unfold get_s_i
    rw [hstop, hstart]
    show some ((readFwfRows lines (H + 1) (B - 2 - (H + 1))).map sICols) = _
    rw [hrows]
  · rw [List.length_map, List.length_take, List.length_drop]
    omega

/-- A synthetic report file used to instantiate the boundary theorems. -/
def exFile : List String :=
  ["title",
   " S   J EXP  ERROR  J REG  I REG",
   " 0.01 50.0 1.0 1.0 1.0",
   " 0.02 40.0 1.0 1.0 1.0",
   "",
   "other",
   " Real Space"]

/-- Witness for C1: the boundary theorem applied to `exFile`, where the
header is at index 1 and the `Real Space` anchor at index 6, so the body is
lines `[2, 4)` and exactly 2 rows are extracted. -/
theorem get_s_i_table_boundaries_witness :
    get_s_i exFile = some (((exFile.drop 2).take 2).map sICols) ∧
      (((exFile.drop 2).take 2).map sICols).length = 2 := by
  have h := get_s_i_table_boundaries exFile 1 6 (by decide) (by decide) (by decide)
    (by decide) (by decide) (by decide) (by decide) (by decide)
  simpa using h

/-! ### The line-scanning loop of `real_space_rg` / `real_space_io` -/

/-- Any scanner with the loop shape of `real_space_rg`/`real_space_io`
returns the parsed fourth token of the first line containing its marker
substring. -/
theorem scan_found (sub : String) (f : List String → Except String (Option ℚ))
    (hcons : ∀ l rest, f (l :: rest) =
      if containsStr l sub then (floatTokenAt l 3).map some else f rest) :
    ∀ (lines : List String) (k : Nat), k < lines.length →
      containsStr (lines.getD k "") sub = true →
      (∀ i, i < k → containsStr (lines.getD i "") sub = false) →
      f lines = (floatTokenAt (lines.getD k "") 3).map some := by
  intro lines
  induction lines with
  | nil => intro k hk; exact absurd hk (by simp)
  | cons l rest ih =>
    intro k hk hc hf
    cases k with
    | zero =>
      simp only [List.getD_cons_zero] at hc ⊢
      rw [hcons, if_pos hc]
    | succ k' =>
      have h0 : containsStr l sub = false := by simpa using hf 0 (Nat.succ_pos _)
      simp only [List.getD_cons_succ] at hc ⊢
      rw [hcons, if_neg (by simp [h0])]
      exact ih k' (by simpa using hk) hc (fun i hi => by simpa using hf (i + 1) (by omega))

/-- Any scanner with the loop shape of `real_space_rg`/`real_space_io` falls
through to Python `None` when no line contains its marker substring. -/
theorem scan_not_found (sub : String) (f : List String → Except String (Option ℚ))
    (hnil : f [] = .ok none)
    (hcons : ∀ l rest, f (l :: rest) =
      if containsStr l sub then (floatTokenAt l 3).map some else f rest) :
    ∀ (lines : List String), (∀ l ∈ lines, containsStr l sub = false) →
      f lines = .ok none := by
  intro lines
  induction lines with
  | nil => intro _; exact hnil
  | cons l rest ih =>
    intro h
    rw [hcons, if_neg (by simp [h l (by simp)])]
    exact ih (fun x hx => h x (by simp [hx]))

/-- **C3** (confirmed): Scalar extraction.  For a file whose first line
containing `Real space Rg` is at index `k` and whose first line containing
`Real space I(0)` is at index `m`, `real_space_rg` returns the
whitespace-split token at index 3 of line `k` parsed as a float, and
`real_space_io` returns the token at index 3 of line `m` parsed as a
float. -/
theorem real_space_scalar_extraction (lines : List String) (k m : Nat)
    (tokR tokI : String) (qR qI : ℚ)
    (hk : k < lines.length)
    (hkc : containsStr (lines.getD k "") "Real space Rg" = true)
    (hkf : ∀ i, i < k → containsStr (lines.getD i "") "Real space Rg" = false)
    (hktok : (pySplit (lines.getD k "")).get? 3 = some tokR)
    (hkq : parseFloat tokR = some qR)
    (hm : m < lines.length)
    (hmc : containsStr (lines.getD m "") "Real space I(0)" = true)
    (hmf : ∀ i, i < m → containsStr (lines.getD i "") "Real space I(0)" = false)
    (hmtok : (pySplit (lines.getD m "")).get? 3 = some tokI)
    (hmq : parseFloat tokI = some qI) :
    real_space_rg lines = .ok (some qR) ∧ real_space_io lines = .ok (some qI) := by
  constructor
  · rw [scan_found "Real space Rg" real_space_rg (fun _ _ => rfl) lines k hk hkc hkf]
    simp only [floatTokenAt, hktok, hkq]
    rfl
  · rw [scan_found "Real space I(0)" real_space_io (fun _ _ => rfl) lines m hm hmc hmf]
    simp only [floatTokenAt, hmtok, hmq]
    rfl

/-- A second synthetic report file carrying both scalar marker lines. -/
def exScalarFile : List String :=
  ["header",
   " Real space Rg:  30.0 +- 0.1",
   " Real space I(0):  100.0 +- 0.2"]

/-- Witness for C3: on `exScalarFile` the Rg marker is first found at index 1
and the I(0) marker at index 2; the fourth tokens parse to 30 and 100. -/
theorem real_space_scalar_extraction_witness :
    real_space_rg exScalarFile = .ok (some 30) ∧
      real_space_io exScalarFile = .ok (some 100) := by
  have h := real_space_scalar_extraction exScalarFile 1 2 "30.0" "100.0" 30 100
    (by decide) (by decide) (by decide) (by decide)
    (by simp +decide [parseFloat, parseUFloat, parseMantissa, splitAtExp, takeDigits,
      digitsToNat])
    (by decide) (by decide) (by decide) (by decide)
    (by simp +decide [parseFloat, parseUFloat, parseMantissa, splitAtExp, takeDigits,
      digitsToNat])
  exact h

/-- **C4** (confirmed): Missing scalar anchor.  For a file with no line
containing `Real space Rg` (respectively `Real space I(0)`), the extraction
function raises nothing and falls through the loop, silently returning
Python `None` (`.ok none`), which `plot_rg_io` then feeds unchecked into the
arithmetic transform (source lines 146-152). -/
theorem real_space_missing_anchor (lines : List String)
    (hrg : ∀ l ∈ lines, containsStr l "Real space Rg" = false)
    (hio : ∀ l ∈ lines, containsStr l "Real space I(0)" = false) :
    real_space_rg lines = .ok none ∧ real_space_io lines = .ok none :=
  ⟨scan_not_found "Real space Rg" real_space_rg rfl (fun _ _ => rfl) lines hrg,
   scan_not_found "Real space I(0)" real_space_io rfl (fun _ _ => rfl) lines hio⟩

/-- Witness for C4: a file with neither marker line. -/
theorem real_space_missing_anchor_witness :
    real_space_rg ["alpha", "beta 1.0"] = .ok none ∧
      real_space_io ["alpha", "beta 1.0"] = .ok none :=
  real_space_missing_anchor ["alpha", "beta 1.0"] (by decide) (by decide)

/-- **C2** (confirmed): Kratky transform.  For every parsed record with
scalars `rg` and `i0` and every table row `(S, J_exp)`, the plotted point is
`x = S * rg`, `y = (S * rg)^2 * (J_exp / i0)`, in the original row order
(`get?`-pointwise with matching lengths); with `rg = 30`, `i0 = 100` and rows
`[(0.01, 50), (0.02, 40)]` the points are exactly `[(0.3, 0.045),
(0.6, 0.144)]` (exact equality, hence within any tolerance such as 1e-9). -/
theorem kratky_transform_points (rg i0 : ℚ) (df : List (ℚ × ℚ)) (i : Nat) :
    (kratkyPoints rg i0 df).length = df.length ∧
      (kratkyPoints rg i0 df).get? i =
        (df.get? i).map (fun r => (r.1 * rg, (r.1 * rg) ^ 2 * (r.2 / i0))) ∧
      kratkyPoints 30 100 [(1/100, 50), (1/50, 40)] =
        [(3/10, 45/1000), (6/10, 144/1000)] := by
  refine ⟨by simp [kratkyPoints], ?_, ?_⟩
  · simp [kratkyPoints, List.get?_map, newColumn, newColumn3]
  · norm_num [kratkyPoints, newColumn, newColumn3]

/-- **C5 counterexample**: the claim says the label of `ab.out` is `ab`, but
the source applies `'_'.join(fn.split('_')[:3])` to the full listing name
with its extension, so the label of `ab.out` is `ab.out`. -/
theorem legend_label_counterexample :
    legendName "ab.out" = "ab.out" ∧ legendName "ab.out" ≠ "ab" := by
  constructor <;> decide

/-- **C5 amended** (corrected): the label is the first three
underscore-delimited tokens of the listing file name (extension not
stripped) rejoined with `_`; when fewer than three tokens exist the label is
the entire file name, extension included, so `sampleA_run1_001_extra.out`
yields `sampleA_run1_001` but `ab.out` yields `ab.out`. -/
theorem legend_label_amended (fn : String)
    (hshort : (splitChar '_' fn.data).length < 3) :
    legendName fn = fn ∧
      legendName "sampleA_run1_001_extra.out" = "sampleA_run1_001" := by
  constructor
  · unfold legendName
    rw [List.take_of_length_le (Nat.le_of_lt hshort), joinSep_splitChar]
  · decide

/-- Witness for the amended C5 at `ab.out`, which splits into a single
token. -/
theorem legend_label_amended_witness :
    legendName "ab.out" = "ab.out" ∧
      legendName "sampleA_run1_001_extra.out" = "sampleA_run1_001" :=
  legend_label_amended "ab.out" (by decide)

/-- **C6 counterexample**: boundary matching is not case-insensitive.  On a
file whose only `Real Space` phrase is lower-case, the matcher rejects the
line and the boundary search finds nothing (the code then raises
`IndexError`), instead of locating the line as the claim states. -/
theorem case_sensitive_boundary_counterexample :
    matchRealSpace " real space ".data = false ∧
      stopIdx ["data", " real space "] = none := by
  constructor <;> decide

/-- **C6 amended** (corrected): the `Real Space` anchor is matched
case-sensitively (pandas `str.contains(pat='\s*Real\s*Space', case=True)`)
and whitespace-tolerantly (any whitespace run between `Real` and `Space`
matches), and the table's exclusive end boundary is two lines before the
first matching line's blank-line-preserving index. -/
theorem case_sensitive_boundary_amended (lines : List String) (B : Nat)
    (w : List Char) (hB : B < lines.length)
    (hmatch : matchRealSpace (lines.getD B "").data = true)
    (hfirst : ∀ i, i < B → matchRealSpace (lines.getD i "").data = false)
    (hw : w.all Char.isWhitespace = true) :
    stopIdx lines = some (B - 2) ∧
      matchRealSpace ("Real".data ++ w ++ "Space".data) = true := by
  constructor
  · unfold stopIdx
    rw [firstMatchIdx_eq_some _ lines B hB hmatch (matchRealSpace_ne_empty hmatch) hfirst]
    rfl
  · have htail : ∀ v : List Char, v.all Char.isWhitespace = true →
        realSpaceTail (v ++ "Space".data) = true := by
      intro v
      induction v with
      | nil => intro _; simp [realSpaceTail, List.isPrefixOf]
      | cons c t ih =>
        intro hv
        simp only [List.all_cons, Bool.and_eq_true] at hv
        simp [realSpaceTail, hv.1, ih hv.2]
    simp [matchRealSpace, List.isPrefixOf, htail w hw]

/-- Witness for the amended C6: file with the anchor at index 3, boundary
3 - 2 = 1, and a two-space run between `Real` and `Space`. -/
theorem case_sensitive_boundary_amended_witness :
    stopIdx ["h", "r1", "r2", " Real Space"] = some 1 ∧
      matchRealSpace ("Real".data ++ "  ".data ++ "Space".data) = true := by
  have h := case_sensitive_boundary_amended ["h", "r1", "r2", " Real Space"] 3 "  ".data
    (by decide) (by decide) (by decide) (by decide)
  simpa using h

/-- **C7** (confirmed): Division-by-zero propagation.  For every record whose
extracted `i0` is exactly 0.0 and every table row `(S, J_exp)`, the y-value
`(S*rg)**2 * (J_exp / i0)` is non-finite (±∞ when `J_exp ≠ 0`, NaN when
`J_exp = 0` or the squared factor is 0) under IEEE-754 semantics; the
element-wise pandas operations return these values, no error is raised, and
the rule is uniform in `rg`, `S` and `J_exp`, hence the same for all rows and
all files of a run. -/
theorem div_zero_y_nonfinite (rg s j : ℚ) :
    (newColumnF64 (.fin rg) (.fin 0) (.fin s) (.fin j)).isFinite = false := by
  unfold newColumnF64
  have hsq : F64.mul (F64.mul (.fin s) (.fin rg)) (F64.mul (.fin s) (.fin rg)) =
      .fin ((s * rg) * (s * rg)) := by
    simp [F64.mul]
  rw [hsq]
  rcases lt_trichotomy j 0 with hj | hj | hj
  · rw [show F64.div (.fin j) (.fin 0) = .ninf by
      simp [F64.div, hj.ne, not_lt_of_lt hj]]
    by_cases hz : (s * rg) * (s * rg) = 0
    · simp [F64.mul, hz, F64.isFinite]
    · have hpos : 0 < (s * rg) * (s * rg) := lt_of_le_of_ne (mul_self_nonneg _) (Ne.symm hz)
      simp [F64.mul, hz, hpos, F64.isFinite]
  · rw [show F64.div (.fin j) (.fin 0) = .nan by simp [F64.div, hj]]
    simp [F64.mul, F64.isFinite]
  · rw [show F64.div (.fin j) (.fin 0) = .inf by simp [F64.div, hj.ne', hj]]
    by_cases hz : (s * rg) * (s * rg) = 0
    · simp [F64.mul, hz, F64.isFinite]
    · have hpos : 0 < (s * rg) * (s * rg) := lt_of_le_of_ne (mul_self_nonneg _) (Ne.symm hz)
      simp [F64.mul, hz, hpos, F64.isFinite]

/-- **C8 counterexample**: with two files and one color, the pairing loop
`for name, df, color in zip(legend_names, dataframes, colors)` evaluates to a
one-element list of triples — `zip` truncates silently; no index error or any
other exception arises from the pairing. -/
theorem color_shortage_counterexample :
    plotSeries ["a", "b"] [(0 : Nat), 1] ["red"] = [("a", 0, "red")] ∧
      (plotSeries ["a", "b"] [(0 : Nat), 1] ["red"]).length = 1 := by
  constructor <;> decide

theorem zip3_length {α β γ : Type} :
    ∀ (as : List α) (bs : List β) (cs : List γ),
      (zip3 as bs cs).length = min as.length (min bs.length cs.length) := by
  intro as
  induction as with
  | nil => intro bs cs; simp [zip3]
  | cons a as ih =>
    intro bs cs
    cases bs with
    | nil => simp [zip3]
    | cons b bs =>
      cases cs with
      | nil => simp [zip3]
      | cons c cs =>
        simp only [zip3, List.length_cons, ih]
        omega

theorem zip3_get? {α β γ : Type} :
    ∀ (as : List α) (bs : List β) (cs : List γ) (i : Nat),
      (zip3 as bs cs).get? i =
        (as.get? i).bind (fun a =>
          (bs.get? i).bind (fun b => (cs.get? i).map (fun c => (a, b, c)))) := by
  intro as
  induction as with
  | nil => intro bs cs i; simp [zip3]
  | cons a as ih =>
    intro bs cs i
    cases bs with
    | nil => cases cs <;> cases i <;> simp [zip3]
    | cons b bs =>
      cases cs with
      | nil => cases i <;> simp [zip3]
      | cons c cs =>
        cases i with
        | zero => simp [zip3]
        | succ i' => simpa [zip3] using ih bs cs i'

/-- **C8 amended** (corrected): when the color list is shorter than the
number of discovered files the pairing does not cycle and does not raise: the
`zip` silently truncates every input to the length of the shortest, so the
surplus files are parsed but never plotted, and each plotted triple pairs the
`i`-th name, dataframe and color positionally. -/
theorem color_shortage_truncates {D : Type} (names : List String) (dfs : List D)
    (colors : List String) (i : Nat) :
    (plotSeries names dfs colors).length =
        min names.length (min dfs.length colors.length) ∧
      (plotSeries names dfs colors).get? i =
        (names.get? i).bind (fun n =>
          (dfs.get? i).bind (fun d => (colors.get? i).map (fun c => (n, d, c)))) := by
  unfold plotSeries
  exact ⟨zip3_length names dfs colors, zip3_get? names dfs colors i⟩

/-- **C9 counterexample**: the claim says a second batch invocation in the
same process appends to stale module-level state, so on a directory listing
with one `.out` file its legend list would have two entries; but all
accumulator lists in the source are created inside the function bodies
(lines 36-37 and 139-142) and the module keeps no mutable state, so the
second invocation returns a fresh one-entry list. -/
theorem stale_state_counterexample :
    (invokeGather (invokeGather () "d" ["a_b_c_x.out"] ["a_b_c_x.out"]).1
        "d" ["a_b_c_x.out"] ["a_b_c_x.out"]).2.2 = ["a_b_c"] ∧
      (invokeGather (invokeGather () "d" ["a_b_c_x.out"] ["a_b_c_x.out"]).1
          "d" ["a_b_c_x.out"] ["a_b_c_x.out"]).2.2.length ≠ 2 := by
  constructor <;> decide

/-- **C9 amended** (corrected): every accumulator list of
`kratky_rg_izero.py` is function-local and re-initialized on each call, so a
batch invocation's result is independent of any prior invocation in the same
process and the module-level state is left unchanged. -/
theorem invocation_state_independent (σ σ' : ModuleState) (dataDir : String)
    (l1 l2 : List String) :
    (invokeGather σ dataDir l1 l2).2 = (invokeGather σ' dataDir l1 l2).2 ∧
      (invokeGather σ dataDir l1 l2).1 = σ :=
  ⟨rfl, rfl⟩

/-- **C10** (confirmed): `gather_files_legend` lists the directory twice —
once for the legend names, once for the paths.  When the two listings agree,
the two returned lists have equal length, and position `i` of both lists is
derived from the same base name: `fns[i]` is `data_dir` joined with the
`i`-th `.out` entry and `legend_names[i]` is the label derived from that same
entry. -/
theorem gather_files_legend_aligned (dataDir : String) (l1 l2 : List String)
    (i : Nat) (hl : l1 = l2) :
    (gather_files_legend dataDir l1 l2).1.length =
        (gather_files_legend dataDir l1 l2).2.length ∧
      (gather_files_legend dataDir l1 l2).1.get? i =
        ((l2.filter (fun fn => pyEndsWith fn ".out")).get? i).map (pathJoin dataDir) ∧
      (gather_files_legend dataDir l1 l2).2.get? i =
        ((l2.filter (fun fn => pyEndsWith fn ".out")).get? i).map legendName := by
  subst hl
  refine ⟨by simp [gather_files_legend], ?_, ?_⟩ <;>
    simp [gather_files_legend, List.get?_map]

/-- Witness for C10 on a listing with one `.out` file and one ignored file,
read at position 0. -/
theorem gather_files_legend_aligned_witness :
    (gather_files_legend "d" ["a_b_c_x.out", "skip.txt"] ["a_b_c_x.out", "skip.txt"]).1.length =
        (gather_files_legend "d" ["a_b_c_x.out", "skip.txt"] ["a_b_c_x.out", "skip.txt"]).2.length ∧
      (gather_files_legend "d" ["a_b_c_x.out", "skip.txt"] ["a_b_c_x.out", "skip.txt"]).1.get? 0 =
        ((["a_b_c_x.out", "skip.txt"].filter (fun fn => pyEndsWith fn ".out")).get? 0).map
          (pathJoin "d") ∧
      (gather_files_legend "d" ["a_b_c_x.out", "skip.txt"] ["a_b_c_x.out", "skip.txt"]).2.get? 0 =
        ((["a_b_c_x.out", "skip.txt"].filter (fun fn => pyEndsWith fn ".out")).get? 0).map
          legendName :=
  gather_files_legend_aligned "d" ["a_b_c_x.out", "skip.txt"] ["a_b_c_x.out", "skip.txt"] 0 rfl
